import Mathlib

/-!
Verification of the Voxie local transcription core (src/src-tauri/src).

The Rust source is shallowly embedded: pure functions become Lean
functions, `f32`/`f64` sample arithmetic is modelled exactly over `ℚ`,
machine integers become `ℕ`, fallible calls return `Except`, and the
outcomes of external collaborators (audio device, filesystem, the native
whisper.cpp binding, the cloud HTTP API, clocks) are passed in as
explicit environment values that each embedded operation consumes.
-/

namespace Voxie

/-! ## Resampler (src/src-tauri/src/audio/mod.rs, `resample_to_mono`) -/

/-- Embedding of Rust `slice::chunks(n)`: splits `l` into consecutive
chunks of size `n`, the last chunk possibly shorter.  Rust panics on
chunk size 0; the only call site passes `native_channels ≥ 2`, so the
`n = 0` case (modelled as `[]`) is unreachable. -/
def chunks {α : Type} (n : ℕ) (l : List α) : List (List α) :=
  match l with
  | [] => []
  | x :: xs =>
    if _h : n = 0 then []
    else (x :: xs).take n :: chunks n ((x :: xs).drop n)
termination_by l.length
decreasing_by simp; omega

/-- Step 1 of `resample_to_mono`: multi-channel mixdown, exactly as the
source writes it — `data.chunks(native_channels).map(|frame| frame.iter().sum() / native_channels as f32)`
for `native_channels > 1`, identity copy otherwise.  Note that the
divisor is the full channel count even for a ragged final frame. -/
def mixdown (data : List ℚ) (native_channels : ℕ) : List ℚ :=
  if native_channels ≤ 1 then data
  else (chunks native_channels data).map (fun frame => frame.sum / (native_channels : ℚ))

/-- One linear-interpolation output sample of `resample_to_mono`:
`src_pos = i * ratio`, `idx = src_pos as usize` (truncation = floor for
nonnegative values), `frac = src_pos - idx`,
`s0 = mono.get(idx).copied().unwrap_or(0.0)`,
`s1 = mono.get(idx + 1).copied().unwrap_or(s0)`. -/
def lerpAt (mono : List ℚ) (ratio : ℚ) (i : ℕ) : ℚ :=
  let src_pos : ℚ := (i : ℚ) * ratio
  let idx : ℕ := (⌊src_pos⌋).toNat
  let frac : ℚ := src_pos - (idx : ℚ)
  let s0 : ℚ := (mono[idx]?).getD 0
  let s1 : ℚ := (mono[idx + 1]?).getD s0
  s0 + (s1 - s0) * frac

/-- Embedding of `resample_to_mono` (audio/mod.rs lines 179-220).
Floating-point sample arithmetic is modelled exactly over `ℚ`. -/
def resample_to_mono (data : List ℚ) (native_rate : ℕ) (native_channels : ℕ)
    (target_rate : ℕ) : List ℚ :=
  if data.isEmpty then []
  else
    let mono : List ℚ := mixdown data native_channels
    if native_rate = target_rate then mono
    else
      let ratio : ℚ := (native_rate : ℚ) / (target_rate : ℚ)
      let out_len : ℕ := (⌈(mono.length : ℚ) / ratio⌉).toNat
      (List.range out_len).map (lerpAt mono ratio)

/-- Reference mixdown as the spec words it (§4.1): "for channel count
> 1, average all channels per frame; channel count ≤ 1 is a no-op
copy" — each frame is averaged over the channels it actually holds. -/
def mixdown_spec (data : List ℚ) (native_channels : ℕ) : List ℚ :=
  if native_channels ≤ 1 then data
  else (chunks native_channels data).map (fun frame => frame.sum / (frame.length : ℚ))

/-- Reference interpolation sample as the spec words it: blend the
sample at the floor index with the next sample, the next sample clamped
to the last sample when out of range. -/
def lerpAt_spec (mono : List ℚ) (ratio : ℚ) (i : ℕ) : ℚ :=
  let src_pos : ℚ := (i : ℚ) * ratio
  let idx : ℕ := (⌊src_pos⌋).toNat
  let frac : ℚ := src_pos - (idx : ℚ)
  let s0 : ℚ := (mono[idx]?).getD 0
  let s1 : ℚ := (mono[idx + 1]?).getD ((mono.getLast?).getD 0)
  s0 + (s1 - s0) * frac

/-- Reference resampling algorithm exactly as the spec describes it
(§4.1): mixdown by per-frame averaging, then, when the rates differ,
`ceil(len / ratio)` linearly interpolated output samples; empty input
yields empty output. -/
def resample_spec (data : List ℚ) (native_rate : ℕ) (native_channels : ℕ)
    (target_rate : ℕ) : List ℚ :=
  let mono : List ℚ := mixdown_spec data native_channels
  if native_rate = target_rate then mono
  else
    let ratio : ℚ := (native_rate : ℚ) / (target_rate : ℚ)
    let out_len : ℕ := (⌈(mono.length : ℚ) / ratio⌉).toNat
    (List.range out_len).map (lerpAt_spec mono ratio)

/-! ## Whisper engine (src/src-tauri/src/whisper/mod.rs) -/

/-- The five supported model tiers (`WhisperModel`). -/
inductive WhisperModel : Type
  | tiny
  | base
  | small
  | medium
  | largeV3
deriving DecidableEq, Repr

/-- `WhisperModel::filename`. -/
def WhisperModel.filename : WhisperModel → String
  | .tiny => "ggml-tiny.bin"
  | .base => "ggml-base.bin"
  | .small => "ggml-small.bin"
  | .medium => "ggml-medium.bin"
  | .largeV3 => "ggml-large-v3.bin"

/-- ASCII lowercase of one character.  Rust `str::to_lowercase` is full
Unicode lowercasing; every name compared by `from_str` is ASCII, where
the two agree, and `Char.toLower` does not reduce in the kernel, so the
ASCII mapping is used. -/
def asciiLower (c : Char) : Char :=
  if 65 <= c.toNat && c.toNat <= 90 then Char.ofNat (c.toNat + 32) else c

/-- `str::to_lowercase` (ASCII fragment, see `asciiLower`). -/
def lowercase (s : String) : String := String.mk (s.data.map asciiLower)

/-- `WhisperModel::from_str` (match on the lowercased name). -/
def WhisperModel.from_str (s : String) : Option WhisperModel :=
  match lowercase s with
  | "tiny" => some .tiny
  | "base" => some .base
  | "small" => some .small
  | "medium" => some .medium
  | "large-v3" => some .largeV3
  | "large_v3" => some .largeV3
  | "largev3" => some .largeV3
  | _ => none

/-- An instantiated native `WhisperContext`.  Its internals are opaque to
this program; a token distinguishes separately constructed contexts. -/
structure EngineCtx : Type where
  token : ℕ
deriving DecidableEq, Repr

/-- `WhisperEngine`: at most one loaded context plus the name of the
model it was built from. -/
structure WhisperEngine : Type where
  ctx : Option EngineCtx
  current_model : Option String
deriving DecidableEq, Repr

/-- `WhisperEngine::new`. -/
def WhisperEngine.new : WhisperEngine := ⟨none, none⟩

/-- `WhisperEngine::is_loaded`. -/
def WhisperEngine.is_loaded (e : WhisperEngine) : Bool := e.ctx.isSome

/-- `WhisperEngine::current_model_name`. -/
def WhisperEngine.current_model_name (e : WhisperEngine) : Option String := e.current_model

/-- Filesystem and native-binding outcomes consumed by `load_model`:
`model_path.exists()`, `fs::metadata(..).len()`,
`model_path.to_str()` validity, and the
`WhisperContext::new_with_params` result. -/
structure FsEnv : Type where
  file_present : Bool
  metadata : Except String ℕ
  path_utf8 : Bool
  construct : Except String EngineCtx
deriving Repr

/-- Error cases of `WhisperEngine::load_model`, one per `bail!`/`context`
early return. -/
inductive LoadError : Type
  | fileNotFound
  | metadataFailed
  | fileTooSmall (size : ℕ)
  | pathInvalid
  | constructFailed (msg : String)
deriving DecidableEq, Repr

/-- `WhisperEngine::load_model` (whisper/mod.rs lines 150-192).
`filename` models `model_path.file_name().and_then(|n| n.to_str())`.
The engine fields are assigned only after every validation and the
native construction succeed. -/
def WhisperEngine.load_model (e : WhisperEngine) (filename : Option String)
    (fs : FsEnv) : WhisperEngine × Except LoadError Unit :=
  if ¬ fs.file_present then (e, .error .fileNotFound)
  else
    match fs.metadata with
    | .error _ => (e, .error .metadataFailed)
    | .ok file_size =>
      if file_size < 1024 * 1024 then (e, .error (.fileTooSmall file_size))
      else if ¬ fs.path_utf8 then (e, .error .pathInvalid)
      else
        match fs.construct with
        | .error msg => (e, .error (.constructFailed msg))
        | .ok ctx =>
          ({ ctx := some ctx, current_model := some (filename.getD "unknown") }, .ok ())

/-- `audio_rms` squared (whisper/mod.rs lines 95-101): the mean of the
squared samples, `0` for empty input.  The source compares
`rms < 0.0005`; since `rms = sqrt(mean_sq)` and both sides are
nonnegative, that comparison is equivalent to
`mean_sq < 0.0005² = 1/4000000`, which is how the silence gate is
embedded without square roots. -/
def audio_rms_sq (data : List ℚ) : ℚ :=
  if data.isEmpty then 0
  else ((data.map (fun s => s * s)).sum) / (data.length : ℚ)

/-- Native outcomes consumed by one inference pass:
`ctx.create_state()`, `state.full(..)`, and the segment texts collected
from `full_n_segments` / `full_get_segment_text`. -/
structure InferEnv : Type where
  create_state : Except String Unit
  full : Except String Unit
  segments : Except String (List String)
deriving Repr

/-- Error cases of `WhisperEngine::transcribe`, one per early return. -/
inductive TranscribeError : Type
  | engineNotLoaded
  | emptyAudio
  | silentAudio
  | createStateFailed
  | inferenceFailed (msg : String)
  | segmentFailed
deriving DecidableEq, Repr

/-- `WhisperEngine::transcribe` (whisper/mod.rs lines 198-298): reject
when no context is loaded, when the audio is empty, or when its RMS is
below `0.0005`; otherwise run the native recognition (outcomes supplied
by `env`), concatenate the segments in order and trim whitespace.
Parameter configuration (language, threads, single-segment hint) does
not affect the returned text's structure and is not modelled. -/
def WhisperEngine.transcribe (e : WhisperEngine) (audio_data : List ℚ)
    (_language : String) (env : InferEnv) : Except TranscribeError String :=
  match e.ctx with
  | none => .error .engineNotLoaded
  | some _ =>
    if audio_data.isEmpty then .error .emptyAudio
    else if audio_rms_sq audio_data < 1 / 4000000 then .error .silentAudio
    else
      match env.create_state with
      | .error _ => .error .createStateFailed
      | .ok _ =>
        match env.full with
        | .error msg => .error (.inferenceFailed msg)
        | .ok _ =>
          match env.segments with
          | .error _ => .error .segmentFailed
          | .ok segs => .ok (String.join segs).trim

/-- `WhisperEngine::unload`. -/
def WhisperEngine.unload (_e : WhisperEngine) : WhisperEngine :=
  { ctx := none, current_model := none }

/-- The operations of the engine's public interface, each bundling the
external outcomes it consumes.  `transcribeOp` takes `&self` in the
source and so returns the engine unchanged. -/
inductive EngineOp : Type
  | loadOp (filename : Option String) (fs : FsEnv)
  | transcribeOp (audio : List ℚ) (language : String) (env : InferEnv)
  | unloadOp

/-- Effect of each engine operation on the engine state. -/
def EngineOp.apply : EngineOp → WhisperEngine → WhisperEngine
  | .loadOp filename fs, e => (e.load_model filename fs).1
  | .transcribeOp _ _ _, e => e
  | .unloadOp, e => e.unload

/-- The `WhisperEngine` representation invariant of claim C8:
`current_model_name()` is `Some` exactly when a context is loaded. -/
def engineInv (e : WhisperEngine) : Prop :=
  e.is_loaded = e.current_model_name.isSome

/-! ## Session state and commands (src/src-tauri/src/state/mod.rs,
src/src-tauri/src/commands/audio.rs, src/src-tauri/src/commands/transcribe.rs) -/

/-- `RecordingStatus`. -/
inductive RecordingStatus : Type
  | idle
  | recording
  | processing
deriving DecidableEq, Repr

/-- `ModelStatus`. -/
inductive ModelStatus : Type
  | notDownloaded
  | downloading
  | downloaded
  | loading
  | ready
  | statusError (msg : String)
deriving DecidableEq, Repr

/-- `TranscriptionMode`. -/
inductive TranscriptionMode : Type
  | localMode
  | cloudMode
deriving DecidableEq, Repr

/-- `CloudProvider`. -/
inductive CloudProvider : Type
  | openAI
  | volcEngine
  | aliyun
  | xunfei
  | custom
deriving DecidableEq, Repr

/-- `HistoryItem`; the chrono timestamp is modelled as a natural. -/
structure HistoryItem : Type where
  id : String
  text : String
  timestamp : ℕ
  duration_ms : ℕ
  mode : TranscriptionMode
  model_name : Option String
deriving DecidableEq, Repr

/-- `AppSettings`; `window_opacity : f64` is modelled over `ℚ`. -/
structure AppSettings : Type where
  mode : TranscriptionMode
  local_model : String
  cloud_provider : CloudProvider
  cloud_base_url : String
  cloud_api_key : String
  shortcut_key : String
  language : String
  window_opacity : ℚ
  auto_copy : Bool
  max_history : ℕ
  theme : String
  my_memory_key : String
deriving DecidableEq, Repr

/-- `AppSettings::default`. -/
def AppSettings.default : AppSettings :=
  { mode := .localMode
    local_model := "small"
    cloud_provider := .openAI
    cloud_base_url := "https://api.openai.com/v1"
    cloud_api_key := ""
    shortcut_key := "Alt"
    language := "auto"
    window_opacity := 85 / 100
    auto_copy := true
    max_history := 100
    theme := "green"
    my_memory_key := "" }

/-- `InnerState`: the mutex-protected business state. -/
structure InnerState : Type where
  recording_status : RecordingStatus
  model_status : ModelStatus
  settings : AppSettings
  history : List HistoryItem
  download_progress : ℚ
  audio_buffer : Option (List ℚ)
  translation_day_count : ℕ
  translation_day_date : String
deriving DecidableEq, Repr

/-- `InnerState::new`. -/
def InnerState.new : InnerState :=
  { recording_status := .idle
    model_status := .notDownloaded
    settings := AppSettings.default
    history := []
    download_progress := 0
    audio_buffer := none
    translation_day_count := 0
    translation_day_date := "" }

/-- `start_recording` (commands/audio.rs lines 25-54).  `dev` is the
outcome of `recorder.start()`.  Rejected only while `Recording`; an
accepted call first clears the pending buffer and enters `Recording`,
then rolls the status back to `Idle` if the capture device fails. -/
def start_recording (inner : InnerState) (dev : Except String Unit) :
    InnerState × Except String Unit :=
  if inner.recording_status = .recording then (inner, .error "已在录音中")
  else
    let inner1 : InnerState :=
      { inner with recording_status := .recording, audio_buffer := none }
    match dev with
    | .error e =>
      ({ inner1 with recording_status := .idle }, .error ("启动录音失败: " ++ e))
    | .ok _ => (inner1, .ok ())

/-- Response of `stop_recording`. -/
structure StopRecordingResponse : Type where
  sample_count : ℕ
  duration_ms : ℕ
deriving DecidableEq, Repr

/-- Milliseconds from a 16 kHz sample count:
`(n as f64 / 16000.0 * 1000.0) as u64`, modelled exactly (the `f64`
intermediate is exact up to the final truncation for all realistic
sizes). -/
def samplesToMs (n : ℕ) : ℕ := n * 1000 / 16000

/-- `stop_recording` (commands/audio.rs lines 63-95).  `recorded` is the
resampled buffer returned by `recorder.stop()`.  Rejected unless
`Recording`; otherwise stores the buffer and enters `Processing`. -/
def stop_recording (inner : InnerState) (recorded : List ℚ) :
    InnerState × Except String StopRecordingResponse :=
  if inner.recording_status ≠ .recording then (inner, .error "当前未在录音")
  else
    ({ inner with audio_buffer := some recorded, recording_status := .processing },
     .ok ⟨recorded.length, samplesToMs recorded.length⟩)

/-- Response of `get_recording_status`. -/
structure RecordingStatusResponse : Type where
  status : RecordingStatus
  duration_ms : ℕ
  sample_count : ℕ
deriving DecidableEq, Repr

/-- `get_recording_status` (commands/audio.rs lines 105-119): counts are
derived solely from `inner.audio_buffer`, the post-stop pending
buffer — the recorder's live internal buffer is not consulted. -/
def get_recording_status (inner : InnerState) : RecordingStatusResponse :=
  let sample_count : ℕ := (inner.audio_buffer.map List.length).getD 0
  ⟨inner.recording_status, samplesToMs sample_count, sample_count⟩

/-- Caller-visible error cases of `transcribe_audio`, one constructor
per early `return Err(..)` in the source (lock poisoning and
thread-spawn/oneshot-channel faults, which are process-level failures
of the runtime rather than outcomes of this algorithm, are not
modelled). -/
inductive CmdError : Type
  | noAudioData
  | cloudNeedsApiKey
  | cloudNeedsBaseUrl
  | cloudFailed (msg : String)
  | unknownModel (name : String)
  | modelNotDownloaded
  | modelPathFailed
  | loadFailed (e : LoadError)
  | inferFailed (e : TranscribeError)
  | inferTimeout
deriving DecidableEq, Repr

/-- `TranscribeResult`. -/
structure TranscribeResult : Type where
  text : String
  duration_ms : ℕ
  item_id : String
deriving DecidableEq, Repr

/-- External outcomes consumed by one `transcribe_audio` call:
the cloud API result, `is_model_downloaded`, `get_model_path`,
the filesystem/native outcomes of the model load, whether the
`tokio::time::timeout` race elapsed before the inference thread
delivered, the native inference outcomes, and `make_id()`/`Utc::now()`. -/
structure TranscribeEnv : Type where
  cloud : Except String String
  model_downloaded : Bool
  model_path_ok : Bool
  fs : FsEnv
  timeout : Bool
  infer : InferEnv
  item_id : String
  timestamp : ℕ
deriving Repr

/-- Result of one `transcribe_audio` call: the final `InnerState`, the
final engine state, how many times the model-loading step ran (the
expensive construction path), and the caller-visible result. -/
structure TranscribeOutcome : Type where
  state : InnerState
  engine : WhisperEngine
  loads : ℕ
  result : Except CmdError TranscribeResult
deriving Repr

/-- Steps 3-4 of `transcribe_audio` (lines 239-273): build the
`HistoryItem`, insert it at the front, truncate to `max_history`, clear
the buffer and return to `Idle`. -/
def finish_transcribe (inner : InnerState) (eng : WhisperEngine) (loads : ℕ)
    (env : TranscribeEnv) (text : String) (duration_ms : ℕ) : TranscribeOutcome :=
  let item : HistoryItem :=
    { id := env.item_id
      text := text
      timestamp := env.timestamp
      duration_ms := duration_ms
      mode := inner.settings.mode
      model_name := none }
  { state :=
      { inner with
        history := (item :: inner.history).take inner.settings.max_history
        audio_buffer := none
        recording_status := .idle }
    engine := eng
    loads := loads
    result := .ok ⟨text, duration_ms, env.item_id⟩ }

/-- `transcribe_audio` (commands/transcribe.rs lines 66-274), the
session orchestrator's transcription command, embedded as a sequential
function: the source takes and releases each lock around every await
point, and this embedding applies the same reads and writes in the same
order. -/
def transcribe_audio (inner : InnerState) (eng : WhisperEngine)
    (env : TranscribeEnv) : TranscribeOutcome :=
  -- step 1: take the pending audio out of the shared state
  let audio : List ℚ := inner.audio_buffer.getD []
  if audio.isEmpty then ⟨inner, eng, 0, .error .noAudioData⟩
  else
    let settings := inner.settings
    let duration_ms : ℕ := samplesToMs audio.length
    -- step 2: run recognition
    match settings.mode with
    | .cloudMode =>
      if settings.cloud_api_key = "" then ⟨inner, eng, 0, .error .cloudNeedsApiKey⟩
      else if settings.cloud_base_url = "" then ⟨inner, eng, 0, .error .cloudNeedsBaseUrl⟩
      else
        match env.cloud with
        | .error msg => ⟨inner, eng, 0, .error (.cloudFailed msg)⟩
        | .ok text => finish_transcribe inner eng 0 env text duration_ms
    | .localMode =>
      match WhisperModel.from_str settings.local_model with
      | none => ⟨inner, eng, 0, .error (.unknownModel settings.local_model)⟩
      | some model =>
        if ¬ env.model_downloaded then ⟨inner, eng, 0, .error .modelNotDownloaded⟩
        else if ¬ env.model_path_ok then ⟨inner, eng, 0, .error .modelPathFailed⟩
        else
          -- needs_load: cheap identity comparison against the loaded model
          let needs_load : Bool := eng.current_model_name ≠ some model.filename
          if needs_load then
            -- surface the Loading sub-status, then load on the big-stack thread
            let inner1 : InnerState := { inner with model_status := .loading }
            match eng.load_model (some model.filename) env.fs with
            | (eng', .error e) => ⟨inner1, eng', 1, .error (.loadFailed e)⟩
            | (eng', .ok _) =>
              let inner2 : InnerState := { inner1 with model_status := .ready }
              if env.timeout then
                ⟨{ inner2 with recording_status := .idle, audio_buffer := none },
                 eng', 1, .error .inferTimeout⟩
              else
                match eng'.transcribe audio settings.language env.infer with
                | .error e => ⟨inner2, eng', 1, .error (.inferFailed e)⟩
                | .ok text => finish_transcribe inner2 eng' 1 env text duration_ms
          else
            if env.timeout then
              ⟨{ inner with recording_status := .idle, audio_buffer := none },
               eng, 0, .error .inferTimeout⟩
            else
              match eng.transcribe audio settings.language env.infer with
              | .error e => ⟨inner, eng, 0, .error (.inferFailed e)⟩
              | .ok text => finish_transcribe inner eng 0 env text duration_ms

/-- One externally triggered command of the session orchestrator,
relating shared state before and after.  Only these commands touch
`recording_status` or `audio_buffer`; `otherCmd` covers every remaining
command (settings, history, model download, translation bookkeeping),
none of which touches those two fields or the engine identity. -/
inductive Step : InnerState × WhisperEngine → InnerState × WhisperEngine → Prop
  | startCmd (inner : InnerState) (eng : WhisperEngine) (dev : Except String Unit) :
      Step (inner, eng) ((start_recording inner dev).1, eng)
  | stopCmd (inner : InnerState) (eng : WhisperEngine) (recorded : List ℚ) :
      Step (inner, eng) ((stop_recording inner recorded).1, eng)
  | transcribeCmd (inner : InnerState) (eng : WhisperEngine) (env : TranscribeEnv) :
      Step (inner, eng) ((transcribe_audio inner eng env).state, (transcribe_audio inner eng env).engine)
  | otherCmd (inner inner' : InnerState) (eng : WhisperEngine)
      (hrec : inner'.recording_status = inner.recording_status)
      (hbuf : inner'.audio_buffer = inner.audio_buffer) :
      Step (inner, eng) (inner', eng)

/-- States reachable from the freshly initialised application state. -/
inductive Reachable : InnerState × WhisperEngine → Prop
  | init : Reachable (InnerState.new, WhisperEngine.new)
  | step {s s' : InnerState × WhisperEngine} : Reachable s → Step s s' → Reachable s'

/-! ### Resampler lemmas -/

theorem chunks_len {α : Type} (n : ℕ) (hn : 0 < n) :
    ∀ (N : ℕ) (l : List α), l.length ≤ N → n ∣ l.length →
      ∀ c ∈ chunks n l, c.length = n := by
  intro N
  induction N with
  | zero =>
    intro l hl _ c hc
    have : l = [] := List.length_eq_zero.mp (Nat.le_zero.mp hl)
    subst this
    simp [chunks] at hc
  | succ N ih =>
    intro l hl hdvd c hc
    match l with
    | [] => simp [chunks] at hc
    | x :: xs =>
      rw [chunks] at hc
      rw [dif_neg hn.ne'] at hc
      have hlen : 0 < (x :: xs).length := by simp
      have hnle : n ≤ (x :: xs).length := Nat.le_of_dvd hlen hdvd
      simp only [List.length_cons] at hnle hl
      rcases List.mem_cons.mp hc with hc | hc
      · subst hc
        simp [List.length_take]
        omega
      · refine ih ((x :: xs).drop n) ?_ ?_ c hc
        · simp only [List.length_drop, List.length_cons]
          omega
        · simp only [List.length_drop]
          exact Nat.dvd_sub' hdvd dvd_rfl

theorem mixdown_eq_spec (data : List ℚ) (native_channels : ℕ)
    (h : native_channels ≤ 1 ∨ native_channels ∣ data.length) :
    mixdown data native_channels = mixdown_spec data native_channels := by
  unfold mixdown mixdown_spec
  by_cases h1 : native_channels ≤ 1
  · simp [h1]
  · rcases h with h | h
    · exact absurd h h1
    · rw [if_neg h1, if_neg h1]
      refine List.map_congr_left ?_
      intro c hc
      have hn : 0 < native_channels := by omega
      have := chunks_len native_channels hn data.length data le_rfl h c hc
      rw [this]

theorem lerp_idx_lt (mono : List ℚ) (ratio : ℚ) (hr : 0 < ratio) (i : ℕ)
    (hi : i < (⌈(mono.length : ℚ) / ratio⌉).toNat) :
    (⌊(i : ℚ) * ratio⌋).toNat < mono.length := by
  have h1 : (i : ℤ) < ⌈(mono.length : ℚ) / ratio⌉ := Int.lt_toNat.mp hi
  have h2 : (i : ℚ) < (mono.length : ℚ) / ratio := by
    have := Int.lt_ceil.mp h1
    exact_mod_cast this
  have h3 : (i : ℚ) * ratio < (mono.length : ℚ) := (lt_div_iff₀ hr).mp h2
  have h4 : ⌊(i : ℚ) * ratio⌋ < (mono.length : ℤ) := Int.floor_lt.mpr (by exact_mod_cast h3)
  have h5 : (0 : ℤ) ≤ ⌊(i : ℚ) * ratio⌋ :=
    Int.floor_nonneg.mpr (by positivity)
  omega

theorem lerpAt_eq_spec (mono : List ℚ) (ratio : ℚ) (i : ℕ)
    (h : (⌊(i : ℚ) * ratio⌋).toNat < mono.length) :
    lerpAt mono ratio i = lerpAt_spec mono ratio i := by
  simp only [lerpAt, lerpAt_spec]
  set idx := (⌊(i : ℚ) * ratio⌋).toNat with hidx
  by_cases h1 : idx + 1 < mono.length
  · rw [List.getElem?_eq_getElem h1]
    simp
  · have hlen : idx + 1 = mono.length := by omega
    have hnone : mono[idx + 1]? = none := by
      rw [List.getElem?_eq_none_iff]
      omega
    have hlast : mono.getLast? = mono[idx]? := by
      rw [List.getLast?_eq_getElem?]
      congr 1
      omega
    have hsome : mono[idx]? = some (mono.get ⟨idx, h⟩) := by
      rw [List.getElem?_eq_getElem h]
      rfl
    rw [hnone, hlast, hsome]

/-- Claim C3 (amended): whenever the channel count is ≤ 1 or divides the
input length (every mixdown frame full), `resample_to_mono` computes
exactly the spec's reference algorithm. -/
theorem resample_to_mono_correct (data : List ℚ) (native_rate native_channels target_rate : ℕ)
    (h : native_channels ≤ 1 ∨ native_channels ∣ data.length) :
    resample_to_mono data native_rate native_channels target_rate =
      resample_spec data native_rate native_channels target_rate := by
  unfold resample_to_mono resample_spec
  by_cases hd : data.isEmpty
  · have : data = [] := List.isEmpty_iff.mp hd
    subst this
    simp [mixdown_spec, chunks]
  · rw [if_neg hd, ← mixdown_eq_spec data native_channels h]
    by_cases hrate : native_rate = target_rate
    · rw [if_pos hrate, if_pos hrate]
    · rw [if_neg hrate, if_neg hrate]
      set mono := mixdown data native_channels with hmono
      set ratio : ℚ := (native_rate : ℚ) / (target_rate : ℚ) with hratio
      by_cases hr : 0 < ratio
      · refine List.map_congr_left ?_
        intro i hi
        have hi' : i < (⌈(mono.length : ℚ) / ratio⌉).toNat := List.mem_range.mp hi
        exact lerpAt_eq_spec mono ratio i (lerp_idx_lt mono ratio hr i hi')
      · have hr0 : ratio = 0 := le_antisymm (not_lt.mp hr) (by positivity)
        rw [hr0]
        simp

/-! ### Engine theorems -/

/-- Claim C4: `WhisperEngine::transcribe` fails with `EngineNotLoaded`
when no context is loaded, with `EmptyAudio` on empty input, and with
`SilentAudio` when the RMS is below the minimum energy threshold; each
failure is the same for every native outcome `env`, i.e. it happens
before the recognition model is invoked, and an all-zero sample array
is rejected as silent. -/
theorem transcribe_preconditions (e : WhisperEngine) (audio : List ℚ)
    (lang : String) (env : InferEnv) :
    (e.ctx = none → e.transcribe audio lang env = .error .engineNotLoaded)
    ∧ (e.ctx ≠ none → audio = [] → e.transcribe audio lang env = .error .emptyAudio)
    ∧ (e.ctx ≠ none → audio ≠ [] → audio_rms_sq audio < 1 / 4000000 →
        e.transcribe audio lang env = .error .silentAudio)
    ∧ (∀ n : ℕ, 0 < n → e.ctx ≠ none →
        e.transcribe (List.replicate n 0) lang env = .error .silentAudio) := by
  refine ⟨?_, ?_, ?_, ?_⟩
  · intro h
    simp [WhisperEngine.transcribe, h]
  · intro h he
    rcases Option.ne_none_iff_exists'.mp h with ⟨c, hc⟩
    subst he
    simp [WhisperEngine.transcribe, hc]
  · intro h hne hsil
    rcases Option.ne_none_iff_exists'.mp h with ⟨c, hc⟩
    have hie : audio.isEmpty = false := by
      simpa [List.isEmpty_iff] using hne
    unfold WhisperEngine.transcribe
    rw [hc]
    simp only [hie, Bool.false_eq_true, if_false]
    rw [if_pos hsil]
  · intro n hn h
    rcases Option.ne_none_iff_exists'.mp h with ⟨c, hc⟩
    have hrms : audio_rms_sq (List.replicate n (0 : ℚ)) = 0 := by
      simp [audio_rms_sq, List.isEmpty_iff, List.map_replicate, hn.ne']
    have hne : (List.replicate n (0 : ℚ)).isEmpty = false := by
      simp [List.isEmpty_iff, hn.ne']
    unfold WhisperEngine.transcribe
    rw [hc]
    simp only [hne, Bool.false_eq_true, if_false]
    rw [if_pos (by rw [hrms]; norm_num)]

/-- Claim C4 witness: a freshly created engine rejects `[1]`, a loaded
engine rejects the empty array and the all-zero array. -/
theorem transcribe_preconditions_witness :
    WhisperEngine.new.transcribe [1] "auto" ⟨.ok (), .ok (), .ok []⟩ =
      .error .engineNotLoaded
    ∧ WhisperEngine.transcribe ⟨some ⟨0⟩, some "ggml-tiny.bin"⟩ [] "auto"
        ⟨.ok (), .ok (), .ok []⟩ = .error .emptyAudio
    ∧ WhisperEngine.transcribe ⟨some ⟨0⟩, some "ggml-tiny.bin"⟩
        (List.replicate 16000 0) "auto" ⟨.ok (), .ok (), .ok []⟩ =
          .error .silentAudio :=
  ⟨(transcribe_preconditions WhisperEngine.new [1] "auto" ⟨.ok (), .ok (), .ok []⟩).1 rfl,
   (transcribe_preconditions ⟨some ⟨0⟩, some "ggml-tiny.bin"⟩ [] "auto"
      ⟨.ok (), .ok (), .ok []⟩).2.1 (by decide) rfl,
   (transcribe_preconditions ⟨some ⟨0⟩, some "ggml-tiny.bin"⟩ (List.replicate 16000 0) "auto"
      ⟨.ok (), .ok (), .ok []⟩).2.2.2 16000 (by decide) (by decide)⟩

/-- Claim C5: when the model file is missing, or its metadata reports a
size below the minimum plausible 1 MiB, `load_model` fails and the
engine — its context and its recorded model identity — is exactly the
engine it started with, for every possible native-construction
outcome. -/
theorem load_model_invalid_file_no_change (e : WhisperEngine)
    (filename : Option String) (fs : FsEnv)
    (h : fs.file_present = false ∨ ∃ sz, fs.metadata = .ok sz ∧ sz < 1024 * 1024) :
    (e.load_model filename fs).1 = e
    ∧ ∃ err, (e.load_model filename fs).2 = .error err := by
  rcases h with h | ⟨sz, hsz, hlt⟩
  · simp [WhisperEngine.load_model, h]
  · unfold WhisperEngine.load_model
    by_cases hp : fs.file_present
    · simp [hp, hsz, hlt]
    · simp [hp]

/-- Claim C5 witness: loading a 100-byte file over a loaded engine
leaves that engine untouched and errors. -/
theorem load_model_invalid_file_no_change_witness :
    (WhisperEngine.load_model ⟨some ⟨7⟩, some "ggml-base.bin"⟩ (some "ggml-tiny.bin")
        ⟨true, .ok 100, true, .ok ⟨8⟩⟩).1 = ⟨some ⟨7⟩, some "ggml-base.bin"⟩
    ∧ ∃ err, (WhisperEngine.load_model ⟨some ⟨7⟩, some "ggml-base.bin"⟩ (some "ggml-tiny.bin")
        ⟨true, .ok 100, true, .ok ⟨8⟩⟩).2 = .error err :=
  load_model_invalid_file_no_change ⟨some ⟨7⟩, some "ggml-base.bin"⟩ (some "ggml-tiny.bin")
    ⟨true, .ok 100, true, .ok ⟨8⟩⟩ (Or.inr ⟨100, rfl, by decide⟩)

/-- `load_model` either leaves the engine untouched (any failure) or
fills both fields at once (success). -/
theorem load_model_result (e : WhisperEngine) (fn : Option String) (fs : FsEnv) :
    (e.load_model fn fs).1 = e
    ∨ ∃ ctx name, (e.load_model fn fs).1 = ⟨some ctx, some name⟩ := by
  unfold WhisperEngine.load_model
  repeat' split
  all_goals first
    | (left; rfl)
    | (right; exact ⟨_, _, rfl⟩)

/-- Claim C8: the invariant holds of `WhisperEngine::new` and is
preserved by every engine operation — `load_model` whether it succeeds
or fails, `transcribe` (which takes `&self`), and `unload`. -/
theorem engine_invariant :
    engineInv WhisperEngine.new
    ∧ ∀ (op : EngineOp) (e : WhisperEngine), engineInv e → engineInv (op.apply e) := by
  constructor
  · rfl
  · intro op e he
    cases op with
    | loadOp filename fs =>
      rcases load_model_result e filename fs with h | ⟨ctx, name, h⟩ <;>
        · show engineInv (e.load_model filename fs).1
          rw [h]
          first | exact he | rfl
    | transcribeOp audio lang env => exact he
    | unloadOp => rfl

/-- Claim C8 witness: the invariant after unloading a loaded engine,
established by the preservation theorem at a concrete engine. -/
theorem engine_invariant_witness :
    engineInv (EngineOp.apply .unloadOp ⟨some ⟨3⟩, some "ggml-small.bin"⟩) :=
  engine_invariant.2 .unloadOp ⟨some ⟨3⟩, some "ggml-small.bin"⟩ rfl


/-! ### Session orchestrator theorems -/

/-- Exhaustive outcome analysis of `transcribe_audio`: a success clears
the buffer, returns to `Idle` and pushes the new item; a timeout clears
the buffer and returns to `Idle` leaving history alone; every other
error leaves `recording_status`, `audio_buffer` and `history` exactly
as they were. -/
theorem transcribe_audio_cases (inner : InnerState) (eng : WhisperEngine)
    (env : TranscribeEnv) :
    (∃ r, (transcribe_audio inner eng env).result = .ok r
      ∧ (transcribe_audio inner eng env).state.recording_status = .idle
      ∧ (transcribe_audio inner eng env).state.audio_buffer = none
      ∧ (transcribe_audio inner eng env).state.history =
          ({ id := env.item_id, text := r.text, timestamp := env.timestamp,
             duration_ms := r.duration_ms, mode := inner.settings.mode,
             model_name := none } :: inner.history).take inner.settings.max_history)
    ∨ ((transcribe_audio inner eng env).result = .error .inferTimeout
      ∧ (transcribe_audio inner eng env).state.recording_status = .idle
      ∧ (transcribe_audio inner eng env).state.audio_buffer = none
      ∧ (transcribe_audio inner eng env).state.history = inner.history)
    ∨ (∃ e, (transcribe_audio inner eng env).result = .error e
      ∧ e ≠ .inferTimeout
      ∧ (transcribe_audio inner eng env).state.recording_status = inner.recording_status
      ∧ (transcribe_audio inner eng env).state.audio_buffer = inner.audio_buffer
      ∧ (transcribe_audio inner eng env).state.history = inner.history) := by
  simp only [transcribe_audio, finish_transcribe]
  repeat' split
  all_goals first
    | exact Or.inl ⟨_, rfl, rfl, rfl, rfl⟩
    | exact Or.inr (Or.inl ⟨rfl, rfl, rfl, rfl⟩)
    | exact Or.inr (Or.inr ⟨_, rfl, by simp, rfl, rfl, rfl⟩)

/-- Claim C1 (amended): for an execution of `transcribe_audio` beginning
in `Processing` with a pending audio buffer, a success clears the
pending buffer, transitions to `Idle` and prepends the result to the
(truncated) history; a timeout clears the pending buffer and
transitions to `Idle` without touching history; every other (domain)
error leaves the session in `Processing` with the pending buffer and
the history untouched, so the recording can be retried. -/
theorem transcribe_audio_outcomes (inner : InnerState) (eng : WhisperEngine)
    (env : TranscribeEnv) (a : List ℚ)
    (hstat : inner.recording_status = .processing)
    (hbuf : inner.audio_buffer = some a) :
    (∀ r, (transcribe_audio inner eng env).result = .ok r →
        (transcribe_audio inner eng env).state.recording_status = .idle
        ∧ (transcribe_audio inner eng env).state.audio_buffer = none
        ∧ (transcribe_audio inner eng env).state.history =
            ({ id := env.item_id, text := r.text, timestamp := env.timestamp,
               duration_ms := r.duration_ms, mode := inner.settings.mode,
               model_name := none } :: inner.history).take inner.settings.max_history)
    ∧ ((transcribe_audio inner eng env).result = .error .inferTimeout →
        (transcribe_audio inner eng env).state.recording_status = .idle
        ∧ (transcribe_audio inner eng env).state.audio_buffer = none
        ∧ (transcribe_audio inner eng env).state.history = inner.history)
    ∧ (∀ e, (transcribe_audio inner eng env).result = .error e → e ≠ .inferTimeout →
        (transcribe_audio inner eng env).state.recording_status = .processing
        ∧ (transcribe_audio inner eng env).state.audio_buffer = some a
        ∧ (transcribe_audio inner eng env).state.history = inner.history) := by
  rcases transcribe_audio_cases inner eng env with
    ⟨r, hr, h1, h2, h3⟩ | ⟨hr, h1, h2, h3⟩ | ⟨e, hr, hne, h1, h2, h3⟩
  · refine ⟨?_, ?_, ?_⟩
    · intro r' hr'
      rw [hr] at hr'
      injection hr' with hr'
      subst hr'
      exact ⟨h1, h2, h3⟩
    · intro hto
      rw [hr] at hto
      exact Except.noConfusion hto
    · intro e he _
      rw [hr] at he
      exact Except.noConfusion he
  · refine ⟨?_, fun _ => ⟨h1, h2, h3⟩, ?_⟩
    · intro r' hr'
      rw [hr] at hr'
      exact Except.noConfusion hr'
    · intro e he hene
      rw [hr] at he
      injection he with he
      exact absurd he.symm hene
  · refine ⟨?_, ?_, ?_⟩
    · intro r' hr'
      rw [hr] at hr'
      exact Except.noConfusion hr'
    · intro hto
      rw [hr] at hto
      injection hto with hto
      exact absurd hto hne
    · intro e' he' _
      rw [hr] at he'
      injection he' with he'
      subst he'
      exact ⟨h1.trans hstat, h2.trans hbuf, h3⟩

/-- Claim C1 counterexample: in `Processing` with pending buffer `[1]`
and cloud mode configured, a failing cloud call returns a domain error
yet leaves the pending buffer set and the state in `Processing` — the
claim's "on every outcome the buffer is cleared and the state
transitions to Idle" is false for domain errors. -/
theorem transcribe_audio_domain_error_keeps_state :
    (transcribe_audio
        { InnerState.new with
          recording_status := .processing,
          audio_buffer := some [1],
          settings := { AppSettings.default with
            mode := .cloudMode,
            cloud_api_key := "k", cloud_base_url := "u" } }
        WhisperEngine.new
        ⟨.error "boom", true, true, ⟨true, .ok 2000000, true, .ok ⟨1⟩⟩, false,
          ⟨.ok (), .ok (), .ok []⟩, "id", 0⟩).result = .error (.cloudFailed "boom")
    ∧ (transcribe_audio
        { InnerState.new with
          recording_status := .processing,
          audio_buffer := some [1],
          settings := { AppSettings.default with
            mode := .cloudMode,
            cloud_api_key := "k", cloud_base_url := "u" } }
        WhisperEngine.new
        ⟨.error "boom", true, true, ⟨true, .ok 2000000, true, .ok ⟨1⟩⟩, false,
          ⟨.ok (), .ok (), .ok []⟩, "id", 0⟩).state.audio_buffer = some [1]
    ∧ (transcribe_audio
        { InnerState.new with
          recording_status := .processing,
          audio_buffer := some [1],
          settings := { AppSettings.default with
            mode := .cloudMode,
            cloud_api_key := "k", cloud_base_url := "u" } }
        WhisperEngine.new
        ⟨.error "boom", true, true, ⟨true, .ok 2000000, true, .ok ⟨1⟩⟩, false,
          ⟨.ok (), .ok (), .ok []⟩, "id", 0⟩).state.recording_status = .processing :=
  ⟨rfl, rfl, rfl⟩

/-- Claim C1 witness: a successful cloud transcription from `Processing`
with pending buffer `[1]` ends `Idle` with the buffer cleared and the
result at the front of history. -/
theorem transcribe_audio_outcomes_witness :
    (transcribe_audio
        { InnerState.new with
          recording_status := .processing,
          audio_buffer := some [1],
          settings := { AppSettings.default with
            mode := .cloudMode,
            cloud_api_key := "k", cloud_base_url := "u" } }
        WhisperEngine.new
        ⟨.ok "hello", true, true, ⟨true, .ok 2000000, true, .ok ⟨1⟩⟩, false,
          ⟨.ok (), .ok (), .ok []⟩, "id", 7⟩).state.recording_status = .idle
    ∧ (transcribe_audio
        { InnerState.new with
          recording_status := .processing,
          audio_buffer := some [1],
          settings := { AppSettings.default with
            mode := .cloudMode,
            cloud_api_key := "k", cloud_base_url := "u" } }
        WhisperEngine.new
        ⟨.ok "hello", true, true, ⟨true, .ok 2000000, true, .ok ⟨1⟩⟩, false,
          ⟨.ok (), .ok (), .ok []⟩, "id", 7⟩).state.audio_buffer = none
    ∧ (transcribe_audio
        { InnerState.new with
          recording_status := .processing,
          audio_buffer := some [1],
          settings := { AppSettings.default with
            mode := .cloudMode,
            cloud_api_key := "k", cloud_base_url := "u" } }
        WhisperEngine.new
        ⟨.ok "hello", true, true, ⟨true, .ok 2000000, true, .ok ⟨1⟩⟩, false,
          ⟨.ok (), .ok (), .ok []⟩, "id", 7⟩).state.history =
      ({ id := "id", text := "hello", timestamp := 7, duration_ms := 0,
         mode := .cloudMode, model_name := none } :: []).take 100 :=
  (transcribe_audio_outcomes
    { InnerState.new with
      recording_status := .processing,
      audio_buffer := some [1],
      settings := { AppSettings.default with
        mode := .cloudMode,
        cloud_api_key := "k", cloud_base_url := "u" } }
    WhisperEngine.new
    ⟨.ok "hello", true, true, ⟨true, .ok 2000000, true, .ok ⟨1⟩⟩, false,
      ⟨.ok (), .ok (), .ok []⟩, "id", 7⟩
    [1] rfl rfl).1 ⟨"hello", 0, "id"⟩ rfl

/-- Truncating after a front insertion into a full list keeps the
length and drops exactly the last element. -/
theorem take_cons_full {α : Type} (x : α) (l : List α) (N : ℕ)
    (hl : l.length = N) (hN : 0 < N) :
    (x :: l).take N = x :: l.dropLast := by
  obtain ⟨M, rfl⟩ : ∃ M, N = M + 1 := ⟨N - 1, by omega⟩
  rw [List.take_succ_cons, List.dropLast_eq_take, hl]
  simp

/-- Claim C7: after every successful transcription the new item sits at
the front of the history, the list is truncated to `max_history`, and
when the history already held exactly `max_history` items the bound is
kept with the oldest item dropped. -/
theorem transcribe_audio_history_bound (inner : InnerState) (eng : WhisperEngine)
    (env : TranscribeEnv) (r : TranscribeResult)
    (h : (transcribe_audio inner eng env).result = .ok r) :
    (transcribe_audio inner eng env).state.history =
      ({ id := env.item_id, text := r.text, timestamp := env.timestamp,
         duration_ms := r.duration_ms, mode := inner.settings.mode,
         model_name := none } :: inner.history).take inner.settings.max_history
    ∧ (inner.history.length = inner.settings.max_history →
        (transcribe_audio inner eng env).state.history.length = inner.settings.max_history)
    ∧ (inner.history.length = inner.settings.max_history →
        0 < inner.settings.max_history →
        (transcribe_audio inner eng env).state.history =
          { id := env.item_id, text := r.text, timestamp := env.timestamp,
            duration_ms := r.duration_ms, mode := inner.settings.mode,
            model_name := none } :: inner.history.dropLast) := by
  rcases transcribe_audio_cases inner eng env with
    ⟨r', hr, _, _, h3⟩ | ⟨hr, _, _, _⟩ | ⟨e, hr, _, _, _, _⟩
  · rw [hr] at h
    injection h with h
    subst h
    refine ⟨h3, ?_, ?_⟩
    · intro hlen
      rw [h3]
      simp only [List.length_take, List.length_cons]
      omega
    · intro hlen hpos
      rw [h3, take_cons_full _ _ _ hlen hpos]
  · rw [hr] at h
    exact Except.noConfusion h
  · rw [hr] at h
    exact Except.noConfusion h

/-- Claim C7 witness: with `max_history = 2` and a full history of two
items, a successful transcription keeps exactly two items, the new one
first and the oldest dropped. -/
theorem transcribe_audio_history_bound_witness :
    (transcribe_audio
        { InnerState.new with
          recording_status := .processing,
          audio_buffer := some [1],
          history := [⟨"a", "x", 1, 10, .cloudMode, none⟩, ⟨"b", "y", 2, 20, .cloudMode, none⟩],
          settings := { AppSettings.default with
            mode := .cloudMode,
            cloud_api_key := "k", cloud_base_url := "u", max_history := 2 } }
        WhisperEngine.new
        ⟨.ok "hello", true, true, ⟨true, .ok 2000000, true, .ok ⟨1⟩⟩, false,
          ⟨.ok (), .ok (), .ok []⟩, "id", 7⟩).state.history =
      [{ id := "id", text := "hello", timestamp := 7, duration_ms := 0,
         mode := .cloudMode, model_name := none },
       ⟨"a", "x", 1, 10, .cloudMode, none⟩] := by
  have := (transcribe_audio_history_bound
    { InnerState.new with
      recording_status := .processing,
      audio_buffer := some [1],
      history := [⟨"a", "x", 1, 10, .cloudMode, none⟩, ⟨"b", "y", 2, 20, .cloudMode, none⟩],
      settings := { AppSettings.default with
        mode := .cloudMode,
        cloud_api_key := "k", cloud_base_url := "u", max_history := 2 } }
    WhisperEngine.new
    ⟨.ok "hello", true, true, ⟨true, .ok 2000000, true, .ok ⟨1⟩⟩, false,
      ⟨.ok (), .ok (), .ok []⟩, "id", 7⟩
    ⟨"hello", 0, "id"⟩ rfl).2.2 rfl (by decide)
  simpa using this

/-- The loading step of `transcribe_audio` runs at most once per call. -/
theorem transcribe_audio_loads_le (inner : InnerState) (eng : WhisperEngine)
    (env : TranscribeEnv) :
    (transcribe_audio inner eng env).loads ≤ 1 := by
  simp only [transcribe_audio, finish_transcribe]
  repeat' split
  all_goals simp

/-- When the requested model's filename equals the engine's recorded
identity, `transcribe_audio` skips the loading step entirely and the
engine is untouched. -/
theorem transcribe_audio_no_reload (inner : InnerState) (eng : WhisperEngine)
    (env : TranscribeEnv) (model : WhisperModel)
    (hm : inner.settings.mode = .localMode)
    (hf : WhisperModel.from_str inner.settings.local_model = some model)
    (hcur : eng.current_model_name = some model.filename) :
    (transcribe_audio inner eng env).loads = 0
    ∧ (transcribe_audio inner eng env).engine = eng := by
  simp only [transcribe_audio, finish_transcribe, hm, hf, hcur]
  repeat' split
  all_goals simp_all

/-- Claim C6: the transcription path performs the expensive engine
construction only when the requested identity differs from the loaded
one — a matching identity makes the load a no-op, and two consecutive
transcriptions of the same model (the first leaving that model loaded)
construct the engine at most once in total. -/
theorem ensure_loaded_idempotent (inner1 inner2 : InnerState) (eng : WhisperEngine)
    (env1 env2 : TranscribeEnv) (model : WhisperModel)
    (h1m : inner1.settings.mode = .localMode)
    (h1f : WhisperModel.from_str inner1.settings.local_model = some model)
    (h2m : inner2.settings.mode = .localMode)
    (h2f : WhisperModel.from_str inner2.settings.local_model = some model) :
    (transcribe_audio inner1 eng env1).loads ≤ 1
    ∧ (eng.current_model_name = some model.filename →
        (transcribe_audio inner1 eng env1).loads = 0
        ∧ (transcribe_audio inner1 eng env1).engine = eng)
    ∧ ((transcribe_audio inner1 eng env1).loads ≠ 0 →
        eng.current_model_name ≠ some model.filename)
    ∧ ((transcribe_audio inner1 eng env1).engine.current_model_name = some model.filename →
        (transcribe_audio inner2 (transcribe_audio inner1 eng env1).engine env2).loads = 0
        ∧ (transcribe_audio inner1 eng env1).loads
            + (transcribe_audio inner2 (transcribe_audio inner1 eng env1).engine env2).loads ≤ 1) := by
  refine ⟨transcribe_audio_loads_le inner1 eng env1,
    fun h => transcribe_audio_no_reload inner1 eng env1 model h1m h1f h, ?_, ?_⟩
  · intro hl hcur
    exact hl (transcribe_audio_no_reload inner1 eng env1 model h1m h1f hcur).1
  · intro hcur
    have h2 := transcribe_audio_no_reload inner2
      (transcribe_audio inner1 eng env1).engine env2 model h2m h2f hcur
    have h1 := transcribe_audio_loads_le inner1 eng env1
    exact ⟨h2.1, by omega⟩

/-- Claim C6 witness: with `ggml-small.bin` already loaded and the
default settings requesting "small", the transcription performs zero
loading steps and keeps the engine. -/
theorem ensure_loaded_idempotent_witness :
    (transcribe_audio
        { InnerState.new with recording_status := .processing, audio_buffer := some [1] }
        ⟨some ⟨1⟩, some "ggml-small.bin"⟩
        ⟨.ok "t", true, true, ⟨true, .ok 2000000, true, .ok ⟨2⟩⟩, false,
          ⟨.ok (), .ok (), .ok ["hi"]⟩, "id", 0⟩).loads = 0
    ∧ (transcribe_audio
        { InnerState.new with recording_status := .processing, audio_buffer := some [1] }
        ⟨some ⟨1⟩, some "ggml-small.bin"⟩
        ⟨.ok "t", true, true, ⟨true, .ok 2000000, true, .ok ⟨2⟩⟩, false,
          ⟨.ok (), .ok (), .ok ["hi"]⟩, "id", 0⟩).engine =
      ⟨some ⟨1⟩, some "ggml-small.bin"⟩ :=
  (ensure_loaded_idempotent
    { InnerState.new with recording_status := .processing, audio_buffer := some [1] }
    { InnerState.new with recording_status := .processing, audio_buffer := some [1] }
    ⟨some ⟨1⟩, some "ggml-small.bin"⟩
    ⟨.ok "t", true, true, ⟨true, .ok 2000000, true, .ok ⟨2⟩⟩, false,
      ⟨.ok (), .ok (), .ok ["hi"]⟩, "id", 0⟩
    ⟨.ok "t", true, true, ⟨true, .ok 2000000, true, .ok ⟨2⟩⟩, false,
      ⟨.ok (), .ok (), .ok ["hi"]⟩, "id", 0⟩
    .small rfl (by decide) rfl (by decide)).2.1 rfl

/-- Claim C2 (amended): `start_recording` is rejected, with the state
(including the pending buffer) fully unchanged, exactly when the
session is `Recording`; `stop_recording` is rejected with the state
fully unchanged whenever the session is not `Recording`. -/
theorem illegal_ops_rejected (inner : InnerState) (dev : Except String Unit)
    (recorded : List ℚ) :
    (inner.recording_status = .recording →
      start_recording inner dev = (inner, .error "已在录音中"))
    ∧ (inner.recording_status ≠ .recording →
      stop_recording inner recorded = (inner, .error "当前未在录音")) := by
  constructor
  · intro h
    simp [start_recording, h]
  · intro h
    simp [stop_recording, h]

/-- Claim C2 counterexample: in `Processing` with a pending buffer,
`start_recording` is NOT rejected — it succeeds, switches the state to
`Recording` and discards the pending buffer, refuting "rejected with no
side effect when the state is Recording or Processing". -/
theorem start_recording_accepted_in_processing :
    (start_recording
        { InnerState.new with recording_status := .processing, audio_buffer := some [1] }
        (.ok ())).2 = .ok ()
    ∧ (start_recording
        { InnerState.new with recording_status := .processing, audio_buffer := some [1] }
        (.ok ())).1.recording_status = .recording
    ∧ (start_recording
        { InnerState.new with recording_status := .processing, audio_buffer := some [1] }
        (.ok ())).1.audio_buffer = none :=
  ⟨rfl, rfl, rfl⟩

/-- Claim C2 witness: the rejections at concrete states — `start` while
`Recording`, `stop` while freshly `Idle` — leave the state untouched. -/
theorem illegal_ops_rejected_witness :
    start_recording { InnerState.new with recording_status := .recording } (.ok ()) =
      ({ InnerState.new with recording_status := .recording }, .error "已在录音中")
    ∧ stop_recording InnerState.new [1] = (InnerState.new, .error "当前未在录音") :=
  ⟨(illegal_ops_rejected { InnerState.new with recording_status := .recording }
      (.ok ()) [1]).1 rfl,
   (illegal_ops_rejected InnerState.new (.ok ()) [1]).2 (by decide)⟩

/-- Invariant of the reachable session states: while `Recording`, the
pending post-stop buffer is always `None` (it is cleared on the accepted
`start` and only ever set by `stop`, which leaves `Recording`). -/
theorem recording_implies_no_buffer (s : InnerState × WhisperEngine)
    (h : Reachable s) :
    s.1.recording_status = .recording → s.1.audio_buffer = none := by
  induction h with
  | init =>
    intro _
    rfl
  | step hr hstep ih =>
    cases hstep with
    | startCmd inner eng dev =>
      by_cases hrec : inner.recording_status = .recording
      · simpa [start_recording, hrec] using ih
      · rcases dev with e | u <;> simp [start_recording, hrec]
    | stopCmd inner eng recorded =>
      by_cases hrec : inner.recording_status = .recording
      · simp [stop_recording, hrec]
      · simp [stop_recording, hrec]
    | transcribeCmd inner eng env =>
      rcases transcribe_audio_cases inner eng env with
        ⟨r, _, h1, h2, _⟩ | ⟨_, h1, h2, _⟩ | ⟨e, _, _, h1, h2, _⟩
      · intro hg
        rw [show ((transcribe_audio inner eng env).state,
            (transcribe_audio inner eng env).engine).1 =
            (transcribe_audio inner eng env).state from rfl, h1] at hg
        exact absurd hg (by decide)
      · intro hg
        rw [show ((transcribe_audio inner eng env).state,
            (transcribe_audio inner eng env).engine).1 =
            (transcribe_audio inner eng env).state from rfl, h1] at hg
        exact absurd hg (by decide)
      · intro hg
        rw [show ((transcribe_audio inner eng env).state,
            (transcribe_audio inner eng env).engine).1 =
            (transcribe_audio inner eng env).state from rfl, h1] at hg
        show (transcribe_audio inner eng env).state.audio_buffer = none
        rw [h2]
        exact ih hg
    | otherCmd inner inner' eng hrec hbuf =>
      intro hg
      rw [show (inner', eng).1 = inner' from rfl, hrec] at hg
      show inner'.audio_buffer = none
      rw [hbuf]
      exact ih hg

/-- Claim C9: at every reachable moment in which the session is
`Recording`, `get_recording_status` reports `sample_count = 0` and
`duration_ms = 0` — its counts come solely from the post-stop pending
buffer, never from the recorder's accumulating live buffer. -/
theorem recording_status_reports_zero (s : InnerState × WhisperEngine)
    (h : Reachable s) (hrec : s.1.recording_status = .recording) :
    get_recording_status s.1 = ⟨.recording, 0, 0⟩ := by
  have hb := recording_implies_no_buffer s h hrec
  simp [get_recording_status, hb, hrec, samplesToMs]

/-- Claim C9 witness: immediately after an accepted `start_recording`
from the initial state, the status query reports zero counts. -/
theorem recording_status_reports_zero_witness :
    get_recording_status (start_recording InnerState.new (.ok ())).1 =
      ⟨.recording, 0, 0⟩ :=
  recording_status_reports_zero
    ((start_recording InnerState.new (.ok ())).1, WhisperEngine.new)
    (Reachable.step Reachable.init (Step.startCmd InnerState.new WhisperEngine.new (.ok ())))
    rfl

/-- Claim C10: an accepted `start_recording` (state not `Recording`)
always clears the pending audio buffer before touching the capture
device — even when the device fails and the status is rolled back to
`Idle` — and changes no other field of the shared state. -/
theorem start_recording_frame_effect (inner : InnerState) (dev : Except String Unit)
    (h : inner.recording_status ≠ .recording) :
    (start_recording inner dev).1.audio_buffer = none
    ∧ (start_recording inner dev).1.history = inner.history
    ∧ (start_recording inner dev).1.settings = inner.settings
    ∧ (start_recording inner dev).1.model_status = inner.model_status
    ∧ (start_recording inner dev).1.download_progress = inner.download_progress
    ∧ (start_recording inner dev).1.translation_day_count = inner.translation_day_count
    ∧ (start_recording inner dev).1.translation_day_date = inner.translation_day_date
    ∧ (∀ e, dev = .error e →
        (start_recording inner dev).1.recording_status = .idle
        ∧ (start_recording inner dev).2 = .error ("启动录音失败: " ++ e)) := by
  unfold start_recording
  rw [if_neg h]
  rcases dev with e | u
  · refine ⟨rfl, rfl, rfl, rfl, rfl, rfl, rfl, ?_⟩
    intro e' he'
    injection he' with he'
    subst he'
    exact ⟨rfl, rfl⟩
  · refine ⟨rfl, rfl, rfl, rfl, rfl, rfl, rfl, ?_⟩
    intro e' he'
    exact Except.noConfusion he'

/-- Claim C10 witness: from `Processing` with a stale pending recording,
a failing device start still discards the stale buffer, rolls the
status back to `Idle`, and leaves history, settings and model status
untouched. -/
theorem start_recording_frame_effect_witness :
    (start_recording
        { InnerState.new with recording_status := .processing, audio_buffer := some [1] }
        (.error "no device")).1.audio_buffer = none
    ∧ (start_recording
        { InnerState.new with recording_status := .processing, audio_buffer := some [1] }
        (.error "no device")).1.history =
      ({ InnerState.new with
        recording_status := .processing,
         audio_buffer := some [1] } : InnerState).history
    ∧ (start_recording
        { InnerState.new with recording_status := .processing, audio_buffer := some [1] }
        (.error "no device")).1.settings =
      ({ InnerState.new with
        recording_status := .processing,
         audio_buffer := some [1] } : InnerState).settings
    ∧ (start_recording
        { InnerState.new with recording_status := .processing, audio_buffer := some [1] }
        (.error "no device")).1.model_status =
      ({ InnerState.new with
        recording_status := .processing,
         audio_buffer := some [1] } : InnerState).model_status
    ∧ (start_recording
        { InnerState.new with recording_status := .processing, audio_buffer := some [1] }
        (.error "no device")).1.recording_status = .idle := by
  have h := start_recording_frame_effect
    { InnerState.new with recording_status := .processing, audio_buffer := some [1] }
    (.error "no device") (by decide)
  exact ⟨h.1, h.2.1, h.2.2.1, h.2.2.2.1, (h.2.2.2.2.2.2.2 "no device" rfl).1⟩

/-- Claim C3 counterexample: a ragged input (one sample, two channels)
makes `resample_to_mono` divide the partial final frame's sum by the
full channel count (giving `1/2`), while the spec's per-frame average
gives `1`; so the two disagree and the unconditional claim is false. -/
theorem resample_ragged_frame_diverges :
    resample_to_mono [1] 16000 2 16000 = [1 / 2]
    ∧ resample_spec [1] 16000 2 16000 = [1]
    ∧ resample_to_mono [1] 16000 2 16000 ≠ resample_spec [1] 16000 2 16000 := by
  refine ⟨?_, ?_, ?_⟩ <;>
    simp [resample_to_mono, resample_spec, mixdown, mixdown_spec, chunks]

/-- Claim C3 witness: on a full-frame stereo input downsampled 2:1 the
code and the reference algorithm agree exactly. -/
theorem resample_to_mono_correct_witness :
    resample_to_mono [1, 2, 3, 4] 32000 2 16000 =
      resample_spec [1, 2, 3, 4] 32000 2 16000 :=
  resample_to_mono_correct [1, 2, 3, 4] 32000 2 16000 (Or.inr (by decide))

end Voxie
